import Mathlib

/-!
Verification of the claim-debatability classification cascade and the
evidence-retrieval stage of the NLP-Project repository.

Texts are modelled as lists of characters.  Python string operations are
embedded explicitly: lower-casing of basic latin letters, whitespace
stripping, whitespace collapsing, and contiguous-substring search.
The two remote oracles of module 3 are modelled by their observable
outcomes (no client, an exception raised at the call boundary, or a
response payload), so that every theorem quantifies over all possible
oracle behaviours.
-/

namespace NLP

/-! ### Character level helpers (Python string primitives) -/

/-- The ASCII whitespace characters recognised by Python `str.strip` and
by the regex class used in `_clean_text`. -/
def pyIsSpace (c : Char) : Bool :=
  c = ' ' || c = '\t' || c = '\n' || c = '\r' || c = '\x0b' || c = '\x0c'

/-- Python `str.lower` restricted to basic latin letters, which is all the
lexical rule bank relies on. -/
def lowerChar (c : Char) : Char :=
  match c with
  | 'A' => 'a' | 'B' => 'b' | 'C' => 'c' | 'D' => 'd' | 'E' => 'e'
  | 'F' => 'f' | 'G' => 'g' | 'H' => 'h' | 'I' => 'i' | 'J' => 'j'
  | 'K' => 'k' | 'L' => 'l' | 'M' => 'm' | 'N' => 'n' | 'O' => 'o'
  | 'P' => 'p' | 'Q' => 'q' | 'R' => 'r' | 'S' => 's' | 'T' => 't'
  | 'U' => 'u' | 'V' => 'v' | 'W' => 'w' | 'X' => 'x' | 'Y' => 'y'
  | 'Z' => 'z'
  | c => c

/-- Lower-casing of a whole text, Python `text.lower()`. -/
def lowerStr (l : List Char) : List Char := l.map lowerChar

/-- A regex word character (`[A-Za-z0-9_]`), used by the word-boundary
assertion in the year pattern. -/
def isWordChar (c : Char) : Bool := c.isAlpha || c.isDigit || c = '_'

/-- Python substring membership, `needle in haystack`. -/
def strContains (needle haystack : List Char) : Bool :=
  decide (needle <:+: haystack)

/-- Python `any(k in text for k in keywords)`. -/
def containsAny (keywords : List (List Char)) (text : List Char) : Bool :=
  keywords.any (fun k => strContains k text)

/-- Python `str.strip()`: drop leading and trailing whitespace. -/
def pyStrip (l : List Char) : List Char :=
  ((l.dropWhile pyIsSpace).reverse.dropWhile pyIsSpace).reverse

/-! ### Module 3: lexical rule bank -/

/-- The fixed institutional-source phrases of layer 1. -/
def AUTHORITATIVE_SOURCES : List (List Char) :=
  ["official data".data, "government data".data, "according to official".data,
   "according to government".data, "world bank".data, "imf".data,
   "un report".data, "census".data, "statistics bureau".data,
   "ministry of".data]

/-- Success of the regex search for a numeric or percentage token,
which fires exactly when the text holds at least one digit. -/
def hasNumber (t : List Char) : Bool := t.any Char.isDigit

/-- Boundary test for the character following a candidate year match. -/
def boundaryAfter (l : List Char) : Bool :=
  match l with
  | [] => true
  | c :: _ => !isWordChar c

/-- Does a 4-digit year token start at the head of the list, with the
trailing word boundary checked against the following character? -/
def yearAt (l : List Char) : Bool :=
  match l with
  | c1 :: c2 :: c3 :: c4 :: rest =>
      (((c1 = '1') && (c2 = '9')) || ((c1 = '2') && (c2 = '0'))) &&
      c3.isDigit && c4.isDigit && boundaryAfter rest
  | _ => false

/-- Boundary test for the character preceding a candidate year match. -/
def boundaryBefore (prev : Option Char) : Bool :=
  match prev with
  | none => true
  | some p => !isWordChar p

/-- Scan for the year regex, tracking the previous character for the
leading word boundary. -/
def hasYearAux (prev : Option Char) (l : List Char) : Bool :=
  match l with
  | [] => false
  | c :: rest =>
      (boundaryBefore prev && yearAt (c :: rest)) || hasYearAux (some c) rest

/-- Success of the regex search for a 19xx/20xx year token with word
boundaries on both sides. -/
def hasYear (t : List Char) : Bool := hasYearAux none t

/-- Layer 1 predicate of module 3. -/
def _is_authoritative_fact (text : List Char) : Bool :=
  let t := lowerStr text
  (hasNumber t && hasYear t) || containsAny AUTHORITATIVE_SOURCES t

/-- The scientific and mission context keywords of layer 2. -/
def SCIENTIFIC_CONTEXT_KEYWORDS : List (List Char) :=
  ["rover".data, "nasa".data, "mission".data, "launched".data,
   "explore".data, "exploring".data, "observatory".data, "satellite".data,
   "collider".data, "experiment".data, "study".data, "researchers at".data,
   "ipcc".data, "cern".data, "laboratory".data, "telescope".data]

/-- Layer 2 predicate of module 3. -/
def _is_scientific_context (text : List Char) : Bool :=
  containsAny SCIENTIFIC_CONTEXT_KEYWORDS (lowerStr text)

/-- The attribution and stance markers of layer 3. -/
def ATTRIBUTION_MARKERS : List (List Char) :=
  ["argue".data, "argues".data, "argued".data,
   "claim".data, "claims".data,
   "believe".data, "believes".data,
   "critic".data, "critics".data,
   "supporter".data, "supporters".data,
   "experts say".data, "scientists say".data,
   "economists say".data, "analysts say".data]

/-- The modality and uncertainty markers of layer 4. -/
def MODAL_MARKERS : List (List Char) :=
  ["could".data, "may".data, "might".data, "likely".data, "unlikely".data,
   "potential".data, "risk".data, "threat".data,
   "expected to".data, "projected to".data,
   "forecast".data, "estimate".data]

/-- The impact and transformation markers of layer 5. -/
def IMPACT_MARKERS : List (List Char) :=
  ["revolutionize".data, "transform".data, "change society".data,
   "solve".data, "destroy".data, "reshape".data, "disrupt".data,
   "eliminate".data, "replace".data]

/-! ### Module 3: remote oracles

The primary oracle call is modelled by its observable outcome: the client
was never configured, the call raised an exception that the wrapper
catches, or the call produced a response body. -/

/-- Observable outcome of one call to the hosted generative classifier. -/
inductive GeminiCall where
  | noClient : GeminiCall
  | raised : GeminiCall
  | responded : List Char → GeminiCall

/-- Response parsing of the primary oracle: an empty body is no signal,
otherwise the body is stripped, lower-cased, and probed for the literal
substring for the negative label before the positive one. -/
def parse_gemini_response (respText : List Char) : Option String :=
  if respText.isEmpty then none
  else if strContains "non-debatable".data (lowerStr (pyStrip respText)) then
    some "non-debatable"
  else if strContains "debatable".data (lowerStr (pyStrip respText)) then
    some "debatable"
  else none

/-- The primary oracle wrapper: a missing client or a raised exception is
converted to no signal at the call boundary. -/
def _gemini_debatable (call : GeminiCall) : Option String :=
  match call with
  | GeminiCall.noClient => none
  | GeminiCall.raised => none
  | GeminiCall.responded t => parse_gemini_response t

/-- Observable outcome of one call to the zero-shot fallback oracle:
either the request raised an exception, or it produced a status code
together with the ranked label list of the payload. -/
inductive ZeroShotCall where
  | raised : ZeroShotCall
  | responded : Nat → List (List Char) → ZeroShotCall

/-- The zero-shot wrapper: exceptions and non-200 statuses degrade to
false; otherwise the top-ranked label is probed for the word marking the
disagreement candidate. -/
def _zero_shot_debatable (call : ZeroShotCall) : Bool :=
  match call with
  | ZeroShotCall.raised => false
  | ZeroShotCall.responded status labels =>
      if status ≠ 200 then false
      else
        match labels with
        | [] => false
        | l0 :: _ => strContains "disagree".data (lowerStr l0)

/-! ### Module 3: the decision cascade -/

/-- The final decision function of module 3, with the two remote oracle
outcomes passed explicitly. -/
def classify_claim_debatability (g : GeminiCall) (z : ZeroShotCall)
    (claim : List Char) : String :=
  let text := lowerStr claim
  if _is_authoritative_fact text then "non-debatable"
  else if _is_scientific_context text && !containsAny IMPACT_MARKERS text then
    "non-debatable"
  else if containsAny IMPACT_MARKERS text then "debatable"
  else if containsAny MODAL_MARKERS text then "debatable"
  else if containsAny ATTRIBUTION_MARKERS text then "debatable"
  else
    match _gemini_debatable g with
    | some r => r
    | none => if _zero_shot_debatable z then "debatable" else "non-debatable"

/-! ### Module 4: text cleaning and chunk filtering -/

/-- Replace each maximal whitespace run by a single blank, tracking
whether the previous character was whitespace. -/
def collapseWsAux (prevSpace : Bool) (l : List Char) : List Char :=
  match l with
  | [] => []
  | c :: rest =>
      if pyIsSpace c then
        if prevSpace then collapseWsAux true rest
        else ' ' :: collapseWsAux true rest
      else c :: collapseWsAux false rest

/-- The regex substitution collapsing whitespace runs in `_clean_text`. -/
def collapseWs (l : List Char) : List Char := collapseWsAux false l

/-- Whitespace normalisation of module 4: collapse runs, then strip. -/
def _clean_text (l : List Char) : List Char := pyStrip (collapseWs l)

/-- The boilerplate keyword denylist of module 4. -/
def BOILERPLATE_KEYWORDS : List (List Char) :=
  ["subscribe".data, "sign in".data, "privacy policy".data,
   "cookie policy".data, "advertisement".data, "all rights reserved".data,
   "newsletter".data, "terms of use".data]

/-- Boilerplate test: any denylist keyword occurring in the lower-cased
text disqualifies the paragraph. -/
def _is_boilerplate (text : List Char) : Bool :=
  containsAny BOILERPLATE_KEYWORDS (lowerStr text)

/-! ### Module 4: URL validation -/

/-- Blocked file extensions: matched as substrings of the URL. -/
def BLOCKED_EXTENSIONS : List (List Char) := [".pdf".data]

/-- Blocked domains: matched as substrings of the URL. -/
def BLOCKED_DOMAINS : List (List Char) :=
  ["researchgate.net".data, "sciencedirect.com".data]

/-- URL validation of module 4; an absent or empty URL is invalid, and a
URL whose lower-cased form holds a blocked extension or blocked domain
substring is invalid. -/
def _is_valid_url (url : Option (List Char)) : Bool :=
  match url with
  | none => false
  | some u =>
      if u.isEmpty then false
      else
        let ul := lowerStr u
        if containsAny BLOCKED_EXTENSIONS ul then false
        else if containsAny BLOCKED_DOMAINS ul then false
        else true

/-! ### Module 4: paragraph extraction -/

/-- The paragraph loop of `_extract_paragraph_chunks`: clean each block,
drop short or boilerplate blocks, stop once the accumulated count reaches
the page cap.  The counter holds the number of chunks taken so far. -/
def extractLoop (max_paragraphs : Nat) (paragraphs : List (List Char))
    (count : Nat) : List (List Char) :=
  match paragraphs with
  | [] => []
  | p :: ps =>
      let text := _clean_text p
      if text.length < 120 then extractLoop max_paragraphs ps count
      else if _is_boilerplate text then extractLoop max_paragraphs ps count
      else if max_paragraphs ≤ count + 1 then [text]
      else text :: extractLoop max_paragraphs ps (count + 1)

/-- Paragraph extraction for one page.  The page fetch is modelled by its
outcome: an exception gives no page, a response gives a status code and
the paragraph-level text blocks of the parsed body. -/
def _extract_paragraph_chunks (page : Option (Nat × List (List Char)))
    (max_paragraphs : Nat) : List (List Char) :=
  match page with
  | none => []
  | some (status, paragraphs) =>
      if status = 200 then extractLoop max_paragraphs paragraphs 0 else []

/-! ### Module 4: the retrieval stage -/

/-- One web-search result: both fields can be absent in the payload. -/
structure SearchResult where
  title : Option (List Char)
  url : Option (List Char)

/-- One qualifying paragraph harvested from one fetched page. -/
structure EvidenceChunk where
  source : Option (List Char)
  url : List Char
  content : List Char

/-- One record entering the retrieval stage. -/
structure InputRecord where
  claim_id : Option Nat
  claim : List Char
  label : List Char

/-- One enriched record leaving the retrieval stage. -/
structure OutputRecord where
  claim_id : Option Nat
  claim : List Char
  label : List Char
  evidence_chunks : List EvidenceChunk

/-- The fixed pro-leaning query suffix. -/
def PRO_SUFFIX : List Char :=
  " benefits advantages positive impact supporting evidence research findings".data

/-- The fixed con-leaning query suffix. -/
def CON_SUFFIX : List Char :=
  " criticism risks negative impact opposing view counterargument concerns debate".data

/-- The per-claim harvesting loop over the merged search results, with
the set of already accepted URLs threaded through.  Besides the chunk
list it returns the list of URLs on which the page fetch was invoked, in
invocation order, so that fetch effects can be stated. -/
def harvest (fetch : List Char → List (List Char)) :
    List SearchResult → List (List Char) → List EvidenceChunk × List (List Char)
  | [], _ => ([], [])
  | r :: rest, seen =>
      match r.url with
      | none => harvest fetch rest seen
      | some url =>
          if _is_valid_url (some url) = false then harvest fetch rest seen
          else if url ∈ seen then harvest fetch rest seen
          else
            let res := harvest fetch rest (url :: seen)
            ((fetch url).map (fun p => ⟨r.title, url, p⟩) ++ res.1,
             url :: res.2)

/-- Processing of one record: only a record labelled debatable triggers
the two searches and the harvesting loop.  Besides the enriched record it
returns the list of issued search queries and the list of fetched URLs,
so that search and fetch effects can be stated. -/
def processRecord (search : List Char → List SearchResult)
    (fetch : List Char → List (List Char)) (item : InputRecord) :
    OutputRecord × List (List Char) × List (List Char) :=
  if item.label = "debatable".data then
    let pro_query := item.claim ++ PRO_SUFFIX
    let con_query := item.claim ++ CON_SUFFIX
    let combined := search pro_query ++ search con_query
    let res := harvest fetch combined []
    (⟨item.claim_id, item.claim, item.label, res.1⟩,
     [pro_query, con_query], res.2)
  else
    (⟨item.claim_id, item.claim, item.label, []⟩, [], [])

/-- The retrieval stage of module 4 over a whole record list. -/
def retrieve_evidence_chunks (search : List Char → List SearchResult)
    (fetch : List Char → List (List Char)) (claims : List InputRecord) :
    List OutputRecord :=
  claims.map (fun item => (processRecord search fetch item).1)

/-- Modelled from the spec: the first occurrences of the valid URLs in
the merged result order, the characterisation of the deduplicated fetch
set stated by the deduplication property. -/
def specFirstValidUrls : List SearchResult → List (List Char) → List (List Char)
  | [], _ => []
  | r :: rest, seen =>
      match r.url with
      | none => specFirstValidUrls rest seen
      | some url =>
          if _is_valid_url (some url) = true ∧ url ∉ seen then
            url :: specFirstValidUrls rest (url :: seen)
          else specFirstValidUrls rest seen

end NLP


namespace NLP

theorem lowerChar_cases (c : Char) :
    lowerChar c = c ∨ lowerChar c ∈
      ['a','b','c','d','e','f','g','h','i','j','k','l','m',
       'n','o','p','q','r','s','t','u','v','w','x','y','z'] := by
  unfold lowerChar
  split <;> first | (right; decide) | (left; rfl)

theorem lowerChar_idem (c : Char) : lowerChar (lowerChar c) = lowerChar c := by
  rcases lowerChar_cases c with h | h
  · conv_lhs => rw [h]
  · simp only [List.mem_cons, List.not_mem_nil, or_false] at h
    rcases h with h|h|h|h|h|h|h|h|h|h|h|h|h|h|h|h|h|h|h|h|h|h|h|h|h|h <;>
      rw [h] <;> decide

theorem isWordChar_lowerChar (c : Char) : isWordChar (lowerChar c) = isWordChar c := by
  unfold lowerChar
  split <;> first | decide | rfl

theorem isDigit_lowerChar (c : Char) : (lowerChar c).isDigit = c.isDigit := by
  unfold lowerChar
  split <;> first | decide | rfl

theorem lowerChar_eq_of_isDigit {d : Char} (hd : d.isDigit = true) (c : Char) :
    lowerChar c = d ↔ c = d := by
  unfold lowerChar
  split <;> first | rfl | (constructor <;> (rintro rfl; revert hd; decide))

theorem lowerStr_idem (t : List Char) : lowerStr (lowerStr t) = lowerStr t := by
  have h : lowerChar ∘ lowerChar = lowerChar := funext lowerChar_idem
  unfold lowerStr
  rw [List.map_map, h]

theorem boundaryAfter_map (l : List Char) :
    boundaryAfter (l.map lowerChar) = boundaryAfter l := by
  cases l with
  | nil => rfl
  | cons c rest => simp [boundaryAfter, isWordChar_lowerChar]

theorem yearAt_map (l : List Char) : yearAt (l.map lowerChar) = yearAt l := by
  have h1 := lowerChar_eq_of_isDigit (d := '1') (by decide)
  have h2 := lowerChar_eq_of_isDigit (d := '2') (by decide)
  have h9 := lowerChar_eq_of_isDigit (d := '9') (by decide)
  have h0 := lowerChar_eq_of_isDigit (d := '0') (by decide)
  match l with
  | [] => rfl
  | [c1] => rfl
  | [c1, c2] => rfl
  | [c1, c2, c3] => rfl
  | c1 :: c2 :: c3 :: c4 :: rest =>
      simp [yearAt, boundaryAfter_map, isDigit_lowerChar, h1, h2, h9, h0]

theorem boundaryBefore_map (prev : Option Char) :
    boundaryBefore (prev.map lowerChar) = boundaryBefore prev := by
  cases prev with
  | none => rfl
  | some p => simp [boundaryBefore, isWordChar_lowerChar]

theorem hasYearAux_map (l : List Char) :
    ∀ prev, hasYearAux (prev.map lowerChar) (l.map lowerChar) = hasYearAux prev l := by
  induction l with
  | nil => intro prev; rfl
  | cons c rest ih =>
      intro prev
      have hmap : lowerChar c :: rest.map lowerChar = (c :: rest).map lowerChar := rfl
      calc hasYearAux (prev.map lowerChar) ((c :: rest).map lowerChar)
          = ((boundaryBefore (prev.map lowerChar) && yearAt ((c :: rest).map lowerChar))
            || hasYearAux ((some c).map lowerChar) (rest.map lowerChar)) := rfl
        _ = ((boundaryBefore prev && yearAt (c :: rest)) || hasYearAux (some c) rest) := by
            rw [boundaryBefore_map, yearAt_map, ih (some c)]
        _ = hasYearAux prev (c :: rest) := rfl

theorem hasYear_lowerStr (t : List Char) : hasYear (lowerStr t) = hasYear t :=
  hasYearAux_map t none

end NLP

namespace NLP

theorem yearAt_head_digit (c : Char) (rest : List Char)
    (h : yearAt (c :: rest) = true) : c.isDigit = true := by
  rcases rest with _ | ⟨c2, _ | ⟨c3, _ | ⟨c4, r⟩⟩⟩ <;>
    simp [yearAt] at h
  rcases h with ⟨⟨h1 | h1, _⟩, _⟩ <;> rw [h1.1] <;> decide

theorem hasNumber_of_hasYearAux (l : List Char) :
    ∀ prev, hasYearAux prev l = true → hasNumber l = true := by
  induction l with
  | nil => intro prev h; simp [hasYearAux] at h
  | cons c rest ih =>
      intro prev h
      rw [hasYearAux, Bool.or_eq_true, Bool.and_eq_true] at h
      rcases h with ⟨_, hy⟩ | h
      · have hc := yearAt_head_digit c rest hy
        simp [hasNumber, hc]
      · have := ih (some c) h
        simp [hasNumber] at this ⊢
        exact Or.inr this

theorem hasNumber_of_hasYear (l : List Char) (h : hasYear l = true) :
    hasNumber l = true :=
  hasNumber_of_hasYearAux l none h

theorem auth_lowerStr (t : List Char) :
    _is_authoritative_fact (lowerStr t) = _is_authoritative_fact t := by
  unfold _is_authoritative_fact
  rw [lowerStr_idem]

theorem sci_lowerStr (t : List Char) :
    _is_scientific_context (lowerStr t) = _is_scientific_context t := by
  unfold _is_scientific_context
  rw [lowerStr_idem]

theorem gemini_range (g : GeminiCall) :
    _gemini_debatable g = none ∨ _gemini_debatable g = some "debatable" ∨
      _gemini_debatable g = some "non-debatable" := by
  cases g with
  | noClient => exact Or.inl rfl
  | raised => exact Or.inl rfl
  | responded t =>
      show parse_gemini_response t = none ∨ parse_gemini_response t = some "debatable" ∨
        parse_gemini_response t = some "non-debatable"
      unfold parse_gemini_response
      split
      · exact Or.inl rfl
      · split
        · exact Or.inr (Or.inr rfl)
        · split
          · exact Or.inr (Or.inl rfl)
          · exact Or.inl rfl

end NLP

namespace NLP

/-- Helper: whenever the layer 1 predicate holds of the raw claim text,
the cascade stops at layer 1. -/
theorem classify_of_auth (g : GeminiCall) (z : ZeroShotCall)
    (claim : List Char) (h : _is_authoritative_fact claim = true) :
    classify_claim_debatability g z claim = "non-debatable" := by
  have h1 : _is_authoritative_fact (lowerStr claim) = true := by
    rw [auth_lowerStr]; exact h
  unfold classify_claim_debatability
  simp [h1]

/-- Claim C1: an authoritative signal forces the label non-debatable,
whatever markers are present and whatever the oracles answer. -/
theorem authoritative_override_non_debatable (g : GeminiCall) (z : ZeroShotCall)
    (claim : List Char) (h : _is_authoritative_fact claim = true) :
    classify_claim_debatability g z claim = "non-debatable" :=
  classify_of_auth g z claim h

theorem authoritative_override_witness :
    _is_authoritative_fact "The World Bank reported growth.".data = true ∧
    classify_claim_debatability GeminiCall.raised ZeroShotCall.raised
      "The World Bank reported growth.".data = "non-debatable" :=
  ⟨by decide,
   authoritative_override_non_debatable GeminiCall.raised ZeroShotCall.raised
     "The World Bank reported growth.".data (by decide)⟩

/-- Claim C2: an impact marker with no authoritative signal forces the
label debatable, independently of both oracle outcomes. -/
theorem impact_marker_debatable (g : GeminiCall) (z : ZeroShotCall)
    (claim : List Char)
    (h1 : containsAny IMPACT_MARKERS (lowerStr claim) = true)
    (h2 : _is_authoritative_fact claim = false) :
    classify_claim_debatability g z claim = "debatable" := by
  have ha : _is_authoritative_fact (lowerStr claim) = false := by
    rw [auth_lowerStr]; exact h2
  unfold classify_claim_debatability
  simp [ha, h1]

theorem impact_marker_witness :
    containsAny IMPACT_MARKERS (lowerStr "It will revolutionize everything".data) = true ∧
    _is_authoritative_fact "It will revolutionize everything".data = false ∧
    classify_claim_debatability GeminiCall.raised ZeroShotCall.raised
      "It will revolutionize everything".data = "debatable" :=
  ⟨by decide, by decide,
   impact_marker_debatable GeminiCall.raised ZeroShotCall.raised
     "It will revolutionize everything".data (by decide) (by decide)⟩

/-- Claim C3: with no authoritative signal, a scientific-context keyword
without impact marker forces non-debatable before the modal and
attribution layers are consulted. -/
theorem scientific_context_protection (g : GeminiCall) (z : ZeroShotCall)
    (claim : List Char)
    (h1 : _is_authoritative_fact claim = false)
    (h2 : _is_scientific_context claim = true)
    (h3 : containsAny IMPACT_MARKERS (lowerStr claim) = false) :
    classify_claim_debatability g z claim = "non-debatable" := by
  have ha : _is_authoritative_fact (lowerStr claim) = false := by
    rw [auth_lowerStr]; exact h1
  have hs : _is_scientific_context (lowerStr claim) = true := by
    rw [sci_lowerStr]; exact h2
  unfold classify_claim_debatability
  simp [ha, hs, h3]

theorem scientific_context_witness :
    _is_authoritative_fact "The rover could fail".data = false ∧
    _is_scientific_context "The rover could fail".data = true ∧
    containsAny IMPACT_MARKERS (lowerStr "The rover could fail".data) = false ∧
    classify_claim_debatability GeminiCall.raised ZeroShotCall.raised
      "The rover could fail".data = "non-debatable" :=
  ⟨by decide, by decide, by decide,
   scientific_context_protection GeminiCall.raised ZeroShotCall.raised
     "The rover could fail".data (by decide) (by decide) (by decide)⟩

/-- Claim C10: a year token alone already carries a digit, so it
satisfies the numeric conjunct by itself and the authoritative override
fires on any text containing a bounded 19xx/20xx token. -/
theorem year_token_alone_non_debatable :
    (∀ t : List Char, hasYear t = true → hasNumber t = true) ∧
    (∀ (g : GeminiCall) (z : ZeroShotCall) (claim : List Char),
      hasYear claim = true →
      classify_claim_debatability g z claim = "non-debatable") := by
  constructor
  · exact hasNumber_of_hasYear
  · intro g z claim h
    have hy : hasYear (lowerStr claim) = true := by
      rw [hasYear_lowerStr]; exact h
    have hn : hasNumber (lowerStr claim) = true := hasNumber_of_hasYear _ hy
    have ha : _is_authoritative_fact claim = true := by
      unfold _is_authoritative_fact
      rw [Bool.or_eq_true, Bool.and_eq_true]
      exact Or.inl ⟨hn, hy⟩
    exact classify_of_auth g z claim ha

theorem year_token_witness :
    hasYear "it happened in 1999 somewhere".data = true ∧
    hasNumber "it happened in 1999 somewhere".data = true ∧
    classify_claim_debatability GeminiCall.noClient ZeroShotCall.raised
      "it happened in 1999 somewhere".data = "non-debatable" :=
  ⟨by decide,
   year_token_alone_non_debatable.1 "it happened in 1999 somewhere".data (by decide),
   year_token_alone_non_debatable.2 GeminiCall.noClient ZeroShotCall.raised
     "it happened in 1999 somewhere".data (by decide)⟩

end NLP

namespace NLP

/-- Claim C5: the cascade always returns one of the two labels, oracle
exceptions are absorbed at the call boundary, and with every layer silent
the default label is non-debatable. -/
theorem cascade_total_and_fail_safe :
    (∀ (g : GeminiCall) (z : ZeroShotCall) (claim : List Char), claim ≠ [] →
      classify_claim_debatability g z claim = "debatable" ∨
      classify_claim_debatability g z claim = "non-debatable") ∧
    _gemini_debatable GeminiCall.raised = none ∧
    _zero_shot_debatable ZeroShotCall.raised = false ∧
    (∀ (g : GeminiCall) (z : ZeroShotCall) (claim : List Char),
      _gemini_debatable g = none → _zero_shot_debatable z = false →
      _is_authoritative_fact claim = false →
      _is_scientific_context claim = false →
      containsAny IMPACT_MARKERS (lowerStr claim) = false →
      containsAny MODAL_MARKERS (lowerStr claim) = false →
      containsAny ATTRIBUTION_MARKERS (lowerStr claim) = false →
      classify_claim_debatability g z claim = "non-debatable") := by
  refine ⟨?_, rfl, rfl, ?_⟩
  · intro g z claim _
    simp only [classify_claim_debatability]
    rcases gemini_range g with hg | hg | hg <;> rw [hg] <;>
      cases h1 : _is_authoritative_fact (lowerStr claim) <;>
      cases h2 : _is_scientific_context (lowerStr claim) <;>
      cases h3 : containsAny IMPACT_MARKERS (lowerStr claim) <;>
      cases h4 : containsAny MODAL_MARKERS (lowerStr claim) <;>
      cases h5 : containsAny ATTRIBUTION_MARKERS (lowerStr claim) <;>
      cases h6 : _zero_shot_debatable z <;>
      simp [h1, h2, h3, h4, h5, h6]
  · intro g z claim hg hz ha hs hi hm hat
    have ha1 : _is_authoritative_fact (lowerStr claim) = false := by
      rw [auth_lowerStr]; exact ha
    have hs1 : _is_scientific_context (lowerStr claim) = false := by
      rw [sci_lowerStr]; exact hs
    unfold classify_claim_debatability
    rw [hg]
    simp [ha1, hs1, hi, hm, hat, hz]

theorem cascade_total_witness :
    (classify_claim_debatability GeminiCall.raised ZeroShotCall.raised
        "hello planet".data = "debatable" ∨
      classify_claim_debatability GeminiCall.raised ZeroShotCall.raised
        "hello planet".data = "non-debatable") ∧
    classify_claim_debatability GeminiCall.noClient ZeroShotCall.raised
      "hello planet".data = "non-debatable" :=
  ⟨cascade_total_and_fail_safe.1 GeminiCall.raised ZeroShotCall.raised
     "hello planet".data (by decide),
   cascade_total_and_fail_safe.2.2.2 GeminiCall.noClient ZeroShotCall.raised
     "hello planet".data rfl rfl (by decide) (by decide) (by decide)
     (by decide) (by decide)⟩

/-- Claim C4: the response parser checks the negative label substring
first, returns the positive label only when the negative one is absent,
and yields no signal on anything else, the empty body included. -/
theorem gemini_response_parsing (resp : List Char) :
    ("non-debatable".data <:+: lowerStr (pyStrip resp) →
      parse_gemini_response resp = some "non-debatable") ∧
    ("debatable".data <:+: lowerStr (pyStrip resp) →
      ¬ "non-debatable".data <:+: lowerStr (pyStrip resp) →
      parse_gemini_response resp = some "debatable") ∧
    (¬ "debatable".data <:+: lowerStr (pyStrip resp) →
      parse_gemini_response resp = none) := by
  refine ⟨?_, ?_, ?_⟩
  · intro h
    have hne : resp.isEmpty = false := by
      cases resp with
      | nil => exact absurd h (by decide)
      | cons c r => rfl
    have hc : strContains "non-debatable".data (lowerStr (pyStrip resp)) = true :=
      decide_eq_true h
    unfold parse_gemini_response
    simp [hne, hc]
  · intro hd hn
    have hne : resp.isEmpty = false := by
      cases resp with
      | nil => exact absurd hd (by decide)
      | cons c r => rfl
    have hc1 : strContains "non-debatable".data (lowerStr (pyStrip resp)) = false :=
      decide_eq_false hn
    have hc2 : strContains "debatable".data (lowerStr (pyStrip resp)) = true :=
      decide_eq_true hd
    unfold parse_gemini_response
    simp [hne, hc1, hc2]
  · intro hd
    have hn : ¬ "non-debatable".data <:+: lowerStr (pyStrip resp) := by
      intro hcontra
      exact hd (List.IsInfix.trans (by decide) hcontra)
    have hc1 : strContains "non-debatable".data (lowerStr (pyStrip resp)) = false :=
      decide_eq_false hn
    have hc2 : strContains "debatable".data (lowerStr (pyStrip resp)) = false :=
      decide_eq_false hd
    unfold parse_gemini_response
    cases resp with
    | nil => rfl
    | cons c r => simp [hc1, hc2]

theorem gemini_response_parsing_witness :
    parse_gemini_response "Non-debatable.".data = some "non-debatable" ∧
    parse_gemini_response "  debatable  ".data = some "debatable" ∧
    parse_gemini_response "no idea".data = none ∧
    parse_gemini_response [] = none :=
  ⟨(gemini_response_parsing "Non-debatable.".data).1 (by decide),
   (gemini_response_parsing "  debatable  ".data).2.1 (by decide) (by decide),
   (gemini_response_parsing "no idea".data).2.2 (by decide),
   (gemini_response_parsing []).2.2 (by decide)⟩

end NLP

namespace NLP

theorem harvest_log_eq_spec (fetch : List Char → List (List Char)) :
    ∀ (rs : List SearchResult) (seen : List (List Char)),
      (harvest fetch rs seen).2 = specFirstValidUrls rs seen := by
  intro rs
  induction rs with
  | nil => intro seen; rfl
  | cons r rest ih =>
      intro seen
      cases hu : r.url with
      | none => simp [harvest, specFirstValidUrls, hu, ih]
      | some url =>
          cases hv : _is_valid_url (some url) with
          | false => simp [harvest, specFirstValidUrls, hu, hv, ih]
          | true =>
              by_cases hm : url ∈ seen
              · simp [harvest, specFirstValidUrls, hu, hv, hm, ih]
              · simp [harvest, specFirstValidUrls, hu, hv, hm, ih]

theorem specFirst_nodup : ∀ (rs : List SearchResult) (seen : List (List Char)),
    (specFirstValidUrls rs seen).Nodup ∧
    ∀ u ∈ specFirstValidUrls rs seen, u ∉ seen := by
  intro rs
  induction rs with
  | nil => intro seen; exact ⟨List.nodup_nil, by intro u hu; cases hu⟩
  | cons r rest ih =>
      intro seen
      cases hu : r.url with
      | none => simpa [specFirstValidUrls, hu] using ih seen
      | some url =>
          by_cases hc : _is_valid_url (some url) = true ∧ url ∉ seen
          · obtain ⟨hnd, hdis⟩ := ih (url :: seen)
            have hurl_notin : url ∉ specFirstValidUrls rest (url :: seen) := by
              intro hmem
              exact (hdis url hmem) (List.mem_cons_self url seen)
            constructor
            · simp only [specFirstValidUrls, hu, if_pos hc]
              exact List.nodup_cons.mpr ⟨hurl_notin, hnd⟩
            · simp only [specFirstValidUrls, hu, if_pos hc]
              intro u humem
              rcases List.mem_cons.mp humem with rfl | htail
              · exact hc.2
              · intro hseen
                exact (hdis u htail) (List.mem_cons_of_mem url hseen)
          · simpa [specFirstValidUrls, hu, if_neg hc] using ih seen

theorem harvest_chunks_from_fetch (fetch : List Char → List (List Char)) :
    ∀ (rs : List SearchResult) (seen : List (List Char))
      (c : EvidenceChunk), c ∈ (harvest fetch rs seen).1 →
      c.url ∈ (harvest fetch rs seen).2 ∧ c.content ∈ fetch c.url := by
  intro rs
  induction rs with
  | nil => intro seen c hc; cases hc
  | cons r rest ih =>
      intro seen c hc
      cases hu : r.url with
      | none =>
          rw [show harvest fetch (r :: rest) seen = harvest fetch rest seen by
            simp [harvest, hu]] at hc ⊢
          exact ih seen c hc
      | some url =>
          cases hv : _is_valid_url (some url) with
          | false =>
              rw [show harvest fetch (r :: rest) seen = harvest fetch rest seen by
                simp [harvest, hu, hv]] at hc ⊢
              exact ih seen c hc
          | true =>
              by_cases hm : url ∈ seen
              · rw [show harvest fetch (r :: rest) seen = harvest fetch rest seen by
                  simp [harvest, hu, hv, hm]] at hc ⊢
                exact ih seen c hc
              · have heq : harvest fetch (r :: rest) seen =
                    ((fetch url).map (fun p => ⟨r.title, url, p⟩) ++
                      (harvest fetch rest (url :: seen)).1,
                     url :: (harvest fetch rest (url :: seen)).2) := by
                  simp [harvest, hu, hv, hm]
                rw [heq] at hc ⊢
                rcases List.mem_append.mp hc with hl | hr
                · obtain ⟨p, hp, rfl⟩ := List.mem_map.mp hl
                  exact ⟨List.mem_cons_self _ _, hp⟩
                · obtain ⟨h1, h2⟩ := ih (url :: seen) c hr
                  exact ⟨List.mem_cons_of_mem _ h1, h2⟩

end NLP

namespace NLP

/-- Claim C7: within one record the fetch is invoked on pairwise distinct
URLs, every chunk comes from a fetched URL, and for a debatable record
the fetched URLs are exactly the first occurrences of the valid URLs in
the merged pro-then-con result order. -/
theorem per_claim_url_dedup (search : List Char → List SearchResult)
    (fetch : List Char → List (List Char)) (item : InputRecord) :
    ((processRecord search fetch item).2.2).Nodup ∧
    (∀ c ∈ (processRecord search fetch item).1.evidence_chunks,
      c.url ∈ (processRecord search fetch item).2.2) ∧
    (item.label = "debatable".data →
      (processRecord search fetch item).2.2 =
        specFirstValidUrls
          (search (item.claim ++ PRO_SUFFIX) ++ search (item.claim ++ CON_SUFFIX))
          []) := by
  by_cases hl : item.label = "debatable".data
  · have hp : processRecord search fetch item =
        (⟨item.claim_id, item.claim, item.label,
          (harvest fetch (search (item.claim ++ PRO_SUFFIX) ++
            search (item.claim ++ CON_SUFFIX)) []).1⟩,
         [item.claim ++ PRO_SUFFIX, item.claim ++ CON_SUFFIX],
         (harvest fetch (search (item.claim ++ PRO_SUFFIX) ++
            search (item.claim ++ CON_SUFFIX)) []).2) := by
      simp [processRecord, hl]
    rw [hp]
    refine ⟨?_, ?_, fun _ => harvest_log_eq_spec fetch _ []⟩
    · rw [harvest_log_eq_spec]
      exact (specFirst_nodup _ []).1
    · intro c hc
      exact (harvest_chunks_from_fetch fetch _ [] c hc).1
  · have hp : processRecord search fetch item =
        (⟨item.claim_id, item.claim, item.label, []⟩, [], []) := by
      simp [processRecord, hl]
    rw [hp]
    refine ⟨List.nodup_nil, ?_, fun h => absurd h hl⟩
    intro c hc
    cases hc

theorem per_claim_url_dedup_witness :
    (processRecord
        (fun _ => [⟨some "t".data, some "http://a.com/x".data⟩])
        (fun _ => ["p".data])
        ⟨some 1, "c".data, "debatable".data⟩).2.2 =
      ["http://a.com/x".data] := by
  have h := (per_claim_url_dedup
    (fun _ => [⟨some "t".data, some "http://a.com/x".data⟩])
    (fun _ => ["p".data])
    ⟨some 1, "c".data, "debatable".data⟩).2.2 rfl
  rw [h]
  decide

/-- Helper: the enriched record always keeps the identifying fields of
the incoming record. -/
theorem processRecord_preserves (search : List Char → List SearchResult)
    (fetch : List Char → List (List Char)) (item : InputRecord) :
    ((processRecord search fetch item).1.claim_id = item.claim_id) ∧
    ((processRecord search fetch item).1.claim = item.claim) ∧
    ((processRecord search fetch item).1.label = item.label) := by
  by_cases hl : item.label = "debatable".data <;> simp [processRecord, hl]

/-- Claim C9: a record not labelled debatable triggers no search and no
fetch and is emitted unchanged with empty evidence, and the stage maps
each input record to one output record in order. -/
theorem non_debatable_skips_harvest :
    (∀ (search : List Char → List SearchResult)
       (fetch : List Char → List (List Char)) (item : InputRecord),
      item.label ≠ "debatable".data →
      processRecord search fetch item =
        (⟨item.claim_id, item.claim, item.label, []⟩, [], [])) ∧
    (∀ (search : List Char → List SearchResult)
       (fetch : List Char → List (List Char)) (claims : List InputRecord),
      (retrieve_evidence_chunks search fetch claims).length = claims.length ∧
      ∀ (i : Nat) (h1 : i < (retrieve_evidence_chunks search fetch claims).length)
        (h2 : i < claims.length),
        ((retrieve_evidence_chunks search fetch claims).get ⟨i, h1⟩).claim_id =
          (claims.get ⟨i, h2⟩).claim_id ∧
        ((retrieve_evidence_chunks search fetch claims).get ⟨i, h1⟩).claim =
          (claims.get ⟨i, h2⟩).claim ∧
        ((retrieve_evidence_chunks search fetch claims).get ⟨i, h1⟩).label =
          (claims.get ⟨i, h2⟩).label) := by
  constructor
  · intro search fetch item h
    simp [processRecord, h]
  · intro search fetch claims
    constructor
    · simp [retrieve_evidence_chunks]
    · intro i h1 h2
      simp only [retrieve_evidence_chunks, List.get_eq_getElem, List.getElem_map]
      exact processRecord_preserves search fetch _

theorem non_debatable_skips_witness :
    processRecord (fun _ => []) (fun _ => [])
        ⟨some 2, "a claim".data, "non-debatable".data⟩ =
      (⟨some 2, "a claim".data, "non-debatable".data, []⟩, [], []) :=
  non_debatable_skips_harvest.1 (fun _ => []) (fun _ => [])
    ⟨some 2, "a claim".data, "non-debatable".data⟩ (by decide)

end NLP

namespace NLP

theorem extractLoop_filtered (max_paragraphs : Nat) :
    ∀ (ps : List (List Char)) (count : Nat) (t : List Char),
      t ∈ extractLoop max_paragraphs ps count →
      120 ≤ t.length ∧ _is_boilerplate t = false := by
  intro ps
  induction ps with
  | nil => intro count t ht; cases ht
  | cons p rest ih =>
      intro count t ht
      rw [extractLoop] at ht
      by_cases h1 : (_clean_text p).length < 120
      · rw [if_pos h1] at ht
        exact ih count t ht
      · rw [if_neg h1] at ht
        cases h2 : _is_boilerplate (_clean_text p) with
        | true => rw [if_pos (by rw [h2])] at ht; exact ih count t ht
        | false =>
            rw [if_neg (by rw [h2]; exact Bool.false_ne_true)] at ht
            by_cases h3 : max_paragraphs ≤ count + 1
            · rw [if_pos h3] at ht
              rcases List.mem_singleton.mp ht with rfl
              exact ⟨Nat.le_of_not_lt h1, h2⟩
            · rw [if_neg h3] at ht
              rcases List.mem_cons.mp ht with rfl | htail
              · exact ⟨Nat.le_of_not_lt h1, h2⟩
              · exact ih (count + 1) t htail

/-- Claim C8: a short or boilerplate paragraph never survives the chunk
filter, and therefore never appears as the content of an evidence chunk
of any record. -/
theorem chunk_filtering :
    (∀ (page : Option (Nat × List (List Char))) (max_paragraphs : Nat)
       (t : List Char), t ∈ _extract_paragraph_chunks page max_paragraphs →
       120 ≤ t.length ∧ _is_boilerplate t = false) ∧
    (∀ (web : List Char → Option (Nat × List (List Char)))
       (search : List Char → List SearchResult) (item : InputRecord)
       (c : EvidenceChunk),
       c ∈ (processRecord search
              (fun u => _extract_paragraph_chunks (web u) 12) item).1.evidence_chunks →
       120 ≤ c.content.length ∧ _is_boilerplate c.content = false) := by
  have hextract : ∀ (page : Option (Nat × List (List Char))) (max_paragraphs : Nat)
      (t : List Char), t ∈ _extract_paragraph_chunks page max_paragraphs →
      120 ≤ t.length ∧ _is_boilerplate t = false := by
    intro page maxp t ht
    cases page with
    | none => cases ht
    | some pr =>
        rcases pr with ⟨status, paragraphs⟩
        rw [_extract_paragraph_chunks] at ht
        by_cases hs : status = 200
        · rw [if_pos hs] at ht
          exact extractLoop_filtered maxp paragraphs 0 t ht
        · rw [if_neg hs] at ht
          cases ht
  refine ⟨hextract, ?_⟩
  intro web search item c hc
  by_cases hl : item.label = "debatable".data
  · have hp : (processRecord search
        (fun u => _extract_paragraph_chunks (web u) 12) item).1.evidence_chunks =
        (harvest (fun u => _extract_paragraph_chunks (web u) 12)
          (search (item.claim ++ PRO_SUFFIX) ++ search (item.claim ++ CON_SUFFIX))
          []).1 := by
      simp [processRecord, hl]
    rw [hp] at hc
    have hcontent := (harvest_chunks_from_fetch
      (fun u => _extract_paragraph_chunks (web u) 12) _ [] c hc).2
    exact hextract (web c.url) 12 c.content hcontent
  · have hp : (processRecord search
        (fun u => _extract_paragraph_chunks (web u) 12) item).1.evidence_chunks = [] := by
      simp [processRecord, hl]
    rw [hp] at hc
    cases hc

set_option maxRecDepth 4000 in
theorem chunk_filtering_witness :
    (List.replicate 130 'a' ∈
      _extract_paragraph_chunks (some (200, [List.replicate 130 'a'])) 12) ∧
    120 ≤ (List.replicate 130 'a').length ∧
    _is_boilerplate (List.replicate 130 'a') = false :=
  ⟨by decide,
   chunk_filtering.1 (some (200, [List.replicate 130 'a'])) 12
     (List.replicate 130 'a') (by decide)⟩

end NLP

namespace NLP

/-- Claim C6 (amended): a URL is accepted exactly when it is present,
non-empty, and its lower-cased form contains no blocked extension
substring and no blocked domain substring. -/
theorem url_validation_amended (u : Option (List Char)) :
    _is_valid_url u = true ↔
      ∃ s, u = some s ∧ s ≠ [] ∧
        (∀ e ∈ BLOCKED_EXTENSIONS, ¬ e <:+: lowerStr s) ∧
        (∀ d ∈ BLOCKED_DOMAINS, ¬ d <:+: lowerStr s) := by
  cases u with
  | none =>
      simp [_is_valid_url]
  | some s =>
      have hred : _is_valid_url (some s) =
          (if s.isEmpty then false
           else if containsAny BLOCKED_EXTENSIONS (lowerStr s) then false
           else if containsAny BLOCKED_DOMAINS (lowerStr s) then false
           else true) := rfl
      rw [hred]
      constructor
      · intro h
        by_cases h0 : s.isEmpty = true
        · rw [if_pos h0] at h; cases h
        · rw [if_neg h0] at h
          refine ⟨s, rfl, by simpa [List.isEmpty_iff] using h0, ?_, ?_⟩
          · intro e he hinf
            have hT : containsAny BLOCKED_EXTENSIONS (lowerStr s) = true :=
              List.any_eq_true.mpr ⟨e, he, decide_eq_true hinf⟩
            rw [if_pos hT] at h; cases h
          · intro d hd hinf
            have hF : containsAny BLOCKED_EXTENSIONS (lowerStr s) = false := by
              cases hc : containsAny BLOCKED_EXTENSIONS (lowerStr s) with
              | false => rfl
              | true => rw [if_pos hc] at h; cases h
            rw [if_neg (by rw [hF]; exact Bool.false_ne_true)] at h
            have hT : containsAny BLOCKED_DOMAINS (lowerStr s) = true :=
              List.any_eq_true.mpr ⟨d, hd, decide_eq_true hinf⟩
            rw [if_pos hT] at h; cases h
      · rintro ⟨s', heq, hne, hext, hdom⟩
        injection heq with heq2
        subst heq2
        have h0 : s.isEmpty = false := by
          cases s with
          | nil => exact absurd rfl hne
          | cons c r => rfl
        have h1 : containsAny BLOCKED_EXTENSIONS (lowerStr s) = false := by
          rw [containsAny, List.any_eq_false]
          intro e he
          exact fun hd2 => hext e he (of_decide_eq_true hd2)
        have h2 : containsAny BLOCKED_DOMAINS (lowerStr s) = false := by
          rw [containsAny, List.any_eq_false]
          intro d hd
          exact fun hx => hdom d hd (of_decide_eq_true hx)
        rw [if_neg (by rw [h0]; exact Bool.false_ne_true),
          if_neg (by rw [h1]; exact Bool.false_ne_true),
          if_neg (by rw [h2]; exact Bool.false_ne_true)]

theorem url_validation_counterexample :
    _is_valid_url (some "https://example.com/paper.pdf?download=true".data) = false ∧
    "https://example.com/paper.pdf?download=true".data ≠ [] ∧
    List.isSuffixOf ".pdf".data
      (lowerStr "https://example.com/paper.pdf?download=true".data) = false ∧
    strContains "researchgate.net".data
      (lowerStr "https://example.com/paper.pdf?download=true".data) = false ∧
    strContains "sciencedirect.com".data
      (lowerStr "https://example.com/paper.pdf?download=true".data) = false := by
  refine ⟨by decide, by decide, by decide, by decide, by decide⟩

theorem url_validation_witness :
    _is_valid_url (some "https://example.com/article".data) = true :=
  (url_validation_amended (some "https://example.com/article".data)).mpr
    ⟨"https://example.com/article".data, rfl, by decide, by decide, by decide⟩

end NLP
